import Mathlib

/-!
Shallow embedding of the order/payment workflow of the CA-Menu backend
(`core/models.py`, `core/serializers.py`, `core/views.py`), together with
theorems settling the specification claims about it.

Conventions: Django `Decimal` money values are embedded as `Int` (the code
only adds, multiplies, compares and clamps them, which are exact operations);
calendar dates are `Nat`; the meal table is a map from primary key to `Meal`.
-/

namespace CAMenu

/-- Order status choices (`Order.STATUS_CHOICES` in `core/models.py`). -/
inductive OrderStatus where
  | pending
  | paid
  | confirmed
  | preparing
  | ready
  | completed
  | cancelled
  | free
deriving DecidableEq, Repr

/-- One `FreeMealDay` row (`core/models.py`): a calendar date with an
active flag.  The reason text and audit fields play no role in any claim. -/
structure FreeMealDay where
  date : Nat
  is_active : Bool
deriving DecidableEq, Repr

/-- The `FreeMealDay` table. -/
abbrev Calendar := List FreeMealDay

/-- `FreeMealDay.is_free_meal_day` (`core/models.py`): an active row exists
for the given date. -/
def is_free_meal_day (cal : Calendar) (date : Nat) : Bool :=
  cal.any fun f => f.date == date && f.is_active

/-- One `Meal` row (`core/models.py`): price, availability, per-person cap
and the optional finite unit counter (`none` = unlimited).  The counter is
embedded as `Int` so that the arithmetic performed on it by the order
pipeline is visible, including any excursion below zero. -/
structure Meal where
  name : String
  price : Int
  is_available : Bool
  max_per_person : Nat
  units_available : Option Int
deriving DecidableEq, Repr

/-- The `Meal` table, as a map from primary key to row. -/
abbrev MealStore := Nat → Option Meal

/-- Overwrite the row at key `i`. -/
def store_set (store : MealStore) (i : Nat) (m : Meal) : MealStore :=
  fun j => if j = i then some m else store j

/-- One requested order line as it reaches `validate_items`: a meal primary
key and a quantity. -/
structure Item where
  meal : Nat
  quantity : Nat
deriving DecidableEq, Repr

/-- One `Order` row (`core/models.py`).  `created_at` is the creation
date, `none` before the first save (Django `auto_now_add`). -/
structure Order where
  status : OrderStatus
  total_amount : Int
  is_free_meal : Bool
  created_at : Option Nat
deriving DecidableEq, Repr

/-- `Order.save` (`core/models.py` lines 189-195): every save re-checks the
free-meal-day calendar for the order's creation date (or today when the row
is being inserted), and on a hit forces the free flag, the `free` status
and a zero total before persisting. -/
def Order.save (cal : Calendar) (today : Nat) (o : Order) : Order :=
  let d := o.created_at.getD today
  if is_free_meal_day cal d then
    { o with created_at := some d, is_free_meal := true,
             status := OrderStatus.free, total_amount := 0 }
  else
    { o with created_at := some d }

/-- One `OrderItem` row (`core/models.py`): meal key, quantity, and the
price/subtotal frozen by `OrderItem.save`. -/
structure OrderItem where
  meal : Nat
  quantity : Nat
  price_per_item : Int
  subtotal : Int
deriving DecidableEq, Repr

/-- `OrderItem.save` (`core/models.py` lines 222-228): the unit price is the
meal's current price, overridden to 0 for a free-meal order, and the
subtotal is price times quantity. -/
def OrderItem.save (m : Meal) (ord : Order) (it : Item) : OrderItem :=
  let p : Int := if ord.is_free_meal then 0 else m.price
  { meal := it.meal, quantity := it.quantity,
    price_per_item := p, subtotal := p * (it.quantity : Int) }

/-- Per-line validation of `OrderCreateSerializer.validate_items`
(`core/serializers.py` lines 183-201): availability, per-person cap, then
the finite unit counter, each check producing the serializer's message.
An unresolvable meal key corresponds to the primary-key field rejecting
the line before `validate_items` runs. -/
def checkItem (store : MealStore) (it : Item) : Except String Unit :=
  match store it.meal with
  | none => Except.error "Invalid meal."
  | some m =>
    if !m.is_available then
      Except.error (m.name ++ " is not available.")
    else if it.quantity > m.max_per_person then
      Except.error ("Maximum " ++ toString m.max_per_person ++ " " ++ m.name
        ++ " allowed per person.")
    else
      match m.units_available with
      | some u =>
        if (it.quantity : Int) > u then
          Except.error ("Only " ++ toString u ++ " units of " ++ m.name
            ++ " available.")
        else Except.ok ()
      | none => Except.ok ()

/-- The loop of `validate_items`: each line is checked in order and the
first failure aborts the whole request. -/
def checkItems (store : MealStore) : List Item → Except String Unit
  | [] => Except.ok ()
  | it :: rest =>
    match checkItem store it with
    | Except.error e => Except.error e
    | Except.ok _ => checkItems store rest

/-- `OrderCreateSerializer.validate_items` (`core/serializers.py` lines
179-203): a non-empty list whose every line passes `checkItem`. -/
def validate_items (store : MealStore) (items : List Item) :
    Except String (List Item) :=
  if items.isEmpty then Except.error "At least one item is required."
  else
    match checkItems store items with
    | Except.error e => Except.error e
    | Except.ok _ => Except.ok items

/-- `AdminOrderCreateSerializer.validate_items` (`core/serializers.py` lines
272-293), whose body is line-for-line the same checks as the employee
serializer's `validate_items`. -/
def admin_validate_items (store : MealStore) (items : List Item) :
    Except String (List Item) :=
  if items.isEmpty then Except.error "At least one item is required."
  else
    match checkItems store items with
    | Except.error e => Except.error e
    | Except.ok _ => Except.ok items

/-- Price of the meal at key `i` (0 for a dangling key, which validation
rules out on every path that uses this). -/
def meal_price (store : MealStore) (i : Nat) : Int :=
  match store i with
  | some m => m.price
  | none => 0

/-- The total-amount loop of `OrderCreateSerializer.create` (`core/serializers.py`
lines 213-218): sum of current meal price times quantity over the lines. -/
def order_total (store : MealStore) : List Item → Int
  | [] => 0
  | it :: rest => meal_price store it.meal * (it.quantity : Int) + order_total store rest

/-- The order-item creation loop of `OrderCreateSerializer.create`: each line
becomes an `OrderItem` via `OrderItem.save` against the created order.  The
fallback for a dangling key mirrors the zero price `meal_price` gives it;
validation guarantees the lookup succeeds on every reachable path. -/
def build_items (store : MealStore) (ord : Order) : List Item → List OrderItem
  | [] => []
  | it :: rest =>
    (match store it.meal with
     | some m => OrderItem.save m ord it
     | none => { meal := it.meal, quantity := it.quantity,
                 price_per_item := 0, subtotal := 0 }) :: build_items store ord rest

/-- One step of the unit-decrement loop of `OrderCreateSerializer.create`
(`core/serializers.py` lines 234-238).  Each line's `item_data['meal']` is
a separate model instance that the primary-key field resolved when the
request was validated, so `meal.units_available -= quantity` reads the
units from that request-start snapshot (`orig`), and `meal.save()` writes
the whole snapshot-based row back over the current table (`store`); among
duplicate lines for one meal the last write wins.  A meal with an
unlimited counter is not written at all. -/
def decrement_one (orig store : MealStore) (it : Item) : MealStore :=
  match orig it.meal with
  | some m =>
    match m.units_available with
    | some u =>
      store_set store it.meal { m with units_available := some (u - (it.quantity : Int)) }
    | none => store
  | none => store

/-- The unit-decrement loop over all lines, left to right, every line
reading from the request-start snapshot `orig`. -/
def decrement_units (orig : MealStore) (store : MealStore) : List Item → MealStore
  | [] => store
  | it :: rest => decrement_units orig (decrement_one orig store it) rest

/-- The order and line items produced by a successful creation. -/
structure CreatedOrder where
  order : Order
  order_items : List OrderItem
deriving DecidableEq, Repr

/-- The in-memory order `OrderCreateSerializer.create` hands to
`Order.objects.create` (`core/serializers.py` lines 209-227): the free-meal
calendar is evaluated for today, the total is the summed line prices (0 on
a free day), and the status starts at `free` or `pending` accordingly. -/
def fresh_order (cal : Calendar) (today : Nat) (store : MealStore)
    (items : List Item) : Order :=
  let is_free_day := is_free_meal_day cal today
  { status := if is_free_day then OrderStatus.free else OrderStatus.pending,
    total_amount := if is_free_day then 0 else order_total store items,
    is_free_meal := is_free_day,
    created_at := none }

/-- `OrderCreateSerializer.create` (`core/serializers.py` lines 205-240)
preceded by its `validate_items`: check every line, build the order
(`Order.objects.create` runs the overridden `Order.save`), freeze the line
items, then decrement the finite unit counters. -/
def orderCreate (cal : Calendar) (today : Nat) (store : MealStore)
    (items : List Item) : Except String (CreatedOrder × MealStore) :=
  match validate_items store items with
  | Except.error e => Except.error e
  | Except.ok items2 =>
    let ord := Order.save cal today (fresh_order cal today store items2)
    let oitems := build_items store ord items2
    let store2 := decrement_units store store items2
    Except.ok ({ order := ord, order_items := oitems }, store2)

/-- The state transition of one order-creation request: a rejected request
returns the meal table unchanged. -/
def processOrder (cal : Calendar) (today : Nat) (store : MealStore)
    (items : List Item) : Option CreatedOrder × MealStore :=
  match orderCreate cal today store items with
  | Except.error _ => (none, store)
  | Except.ok (co, s2) => (some co, s2)

/-- An `AdminNotification` row (`core/models.py`), reduced to the type tag;
the claims only speak about whether one is persisted. -/
structure AdminNotification where
  notification_type : String
deriving DecidableEq, Repr

/-- `OrderCreateView.perform_create` (`core/views.py`): the serializer is
saved and, only on success, one `new_order` notification row is created. -/
def orderCreateView (cal : Calendar) (today : Nat) (store : MealStore)
    (items : List Item) :
    Option CreatedOrder × List AdminNotification × MealStore :=
  match orderCreate cal today store items with
  | Except.error _ => (none, [], store)
  | Except.ok (co, s2) => (some co, [{ notification_type := "new_order" }], s2)

/-- One `Payment` row (`core/models.py`). -/
structure Payment where
  transaction_code : String
  amount_paid : Int
  is_verified : Bool
  verification_notes : String
deriving DecidableEq, Repr

/-- `Payment.amount_remaining` (`core/models.py` lines 259-261). -/
def Payment.amount_remaining (p : Payment) (o : Order) : Int :=
  max (o.total_amount - p.amount_paid) 0

/-- `Payment.is_fully_paid` (`core/models.py` lines 263-265). -/
def Payment.is_fully_paid (p : Payment) (o : Order) : Bool :=
  p.amount_paid ≥ o.total_amount

/-- The writable fields a payment-submission request carries
(`PaymentSerializer`, `core/serializers.py`). -/
structure PaymentInput where
  transaction_code : String
  amount_paid : Int
deriving DecidableEq, Repr

/-- `PaymentSerializer.validate` (`core/serializers.py` lines 393-402):
reject when a payment already exists for the order, then when the order is
flagged as a free meal. -/
def payment_validate (o : Order) (existing : Option Payment) :
    Except String Unit :=
  if existing.isSome then
    Except.error "Payment already exists for this order."
  else if o.is_free_meal then
    Except.error "Cannot create payment for free meal orders."
  else Except.ok ()

/-- `PaymentSerializer.validate` followed by `PaymentSerializer.create`
(`core/serializers.py` lines 393-409): create the payment row, assign the
order the `paid` status and save the order through the overridden
`Order.save`. -/
def paymentSubmit (cal : Calendar) (today : Nat) (o : Order)
    (existing : Option Payment) (inp : PaymentInput) :
    Except String (Order × Payment) :=
  match payment_validate o existing with
  | Except.error e => Except.error e
  | Except.ok _ =>
    let p : Payment :=
      { transaction_code := inp.transaction_code,
        amount_paid := inp.amount_paid,
        is_verified := false,
        verification_notes := "" }
    let o2 := Order.save cal today { o with status := OrderStatus.paid }
    Except.ok (o2, p)

/-- The writable fields of `PaymentUpdateSerializer` (`core/serializers.py`
lines 412-416); `none` means the field is absent from the request. -/
structure PaymentUpdateInput where
  amount_paid : Option Int
  is_verified : Option Bool
  verification_notes : Option String
deriving DecidableEq, Repr

/-- The `ModelSerializer.update` part of `PaymentUpdateSerializer.update`:
each supplied field overwrites the stored one. -/
def apply_update (p : Payment) (inp : PaymentUpdateInput) : Payment :=
  { p with amount_paid := inp.amount_paid.getD p.amount_paid,
           is_verified := inp.is_verified.getD p.is_verified,
           verification_notes := inp.verification_notes.getD p.verification_notes }

/-- `PaymentUpdateSerializer.update` (`core/serializers.py` lines 418-426):
apply the field updates, and when the payment is now verified and fully
paid, assign the order the `confirmed` status and save it through the
overridden `Order.save`; otherwise the order row is untouched. -/
def paymentUpdate (cal : Calendar) (today : Nat) (p : Payment) (o : Order)
    (inp : PaymentUpdateInput) : Payment × Order :=
  let p2 := apply_update p inp
  if p2.is_verified && p2.is_fully_paid o then
    (p2, Order.save cal today { o with status := OrderStatus.confirmed })
  else
    (p2, o)

/-- Sum of the requested quantities for meal key `m` over the lines of one
request. -/
def qty_in (m : Nat) : List Item → Int
  | [] => 0
  | it :: rest => (if it.meal = m then (it.quantity : Int) else 0) + qty_in m rest

/-- Run a sequence of order-creation requests against the meal table,
returning the final table and, per request, whether it was accepted. -/
def runOrders (cal : Calendar) (today : Nat) (store : MealStore) :
    List (List Item) → MealStore × List Bool
  | [] => (store, [])
  | req :: rest =>
    let step := processOrder cal today store req
    let tail := runOrders cal today step.2 rest
    (tail.1, step.1.isSome :: tail.2)

/-- Total quantity of meal key `m` consumed by the accepted requests of a
run, given the per-request acceptance flags. -/
def consumed (m : Nat) : List (List Item) → List Bool → Int
  | [], _ => 0
  | _ :: _, [] => 0
  | req :: rest, f :: fs => (if f then qty_in m req else 0) + consumed m rest fs

/-- Subtract `a` from a meal's finite unit counter (no-op on an unlimited
meal). -/
def drain (a : Int) (x : Meal) : Meal :=
  { x with units_available := x.units_available.map (fun u => u - a) }

/-- Every finite unit counter in the table is non-negative (what the
database's `PositiveIntegerField` column promises about stored rows). -/
def storeWF (store : MealStore) : Prop :=
  ∀ i m u, store i = some m → m.units_available = some u → 0 ≤ u

/-- Sum of the frozen subtotals of a list of order items. -/
def sum_subtotals : List OrderItem → Int
  | [] => 0
  | oi :: rest => oi.subtotal + sum_subtotals rest

/-- Concrete meal used by witnesses: the specification's scenario meal
(price 500, cap 2, 3 units). -/
def mealA : Meal :=
  { name := "Pilau", price := 500, is_available := true,
    max_per_person := 2, units_available := some 3 }

/-- Concrete one-meal table used by witnesses. -/
def storeA : MealStore := fun i => if i = 0 then some mealA else none

/-- Concrete table with an unavailable second meal, used by the validation
witness. -/
def storeB : MealStore := fun i =>
  if i = 0 then some mealA
  else if i = 1 then
    some { name := "Ugali", price := 100, is_available := false,
           max_per_person := 3, units_available := none }
  else none

/-- The order and line items `orderCreate` produces from `storeA` for a
single line of two units of meal 0 on a regular day. -/
def coA : CreatedOrder :=
  { order := { status := OrderStatus.pending, total_amount := 1000,
               is_free_meal := false, created_at := some 7 },
    order_items := [{ meal := 0, quantity := 2, price_per_item := 500,
                      subtotal := 1000 }] }

/-- The slice of a `CustomUser` row the login claim needs. -/
structure User where
  email : String
  is_email_verified : Bool
deriving DecidableEq, Repr

/-- `UserLoginSerializer.validate` (`core/serializers.py` lines 70-83).
`auth` is the outcome of Django's `authenticate` collaborator: `some u`
when the supplied credentials are correct for user `u`, `none` otherwise. -/
def login_validate (auth : Option User) (email password : String) :
    Except String User :=
  if email ≠ "" ∧ password ≠ "" then
    match auth with
    | none => Except.error "Invalid email or password."
    | some u =>
      if !u.is_email_verified then
        Except.error "Please verify your email before logging in."
      else Except.ok u
  else Except.error "Email and password are required."

/-! Helper lemmas about the meal table and the decrement loop. -/

lemma store_set_self (store : MealStore) (i : Nat) (m : Meal) :
    store_set store i m i = some m := by
  simp [store_set]

lemma store_set_ne (store : MealStore) (i j : Nat) (m : Meal) (h : j ≠ i) :
    store_set store i m j = store j := by
  simp [store_set, h]

lemma decrement_one_ne (orig store : MealStore) (it : Item) (j : Nat)
    (h : j ≠ it.meal) : decrement_one orig store it j = store j := by
  unfold decrement_one
  cases hm : orig it.meal with
  | none => rfl
  | some x =>
    cases x with
    | mk nm pr av mx ua =>
      cases ua with
      | none => rfl
      | some u => simp [store_set, h]

lemma decrement_one_apply (orig store : MealStore) (it : Item)
    (h : store it.meal = orig it.meal) :
    decrement_one orig store it it.meal =
      (orig it.meal).map (drain (it.quantity : Int)) := by
  unfold decrement_one
  cases hm : orig it.meal with
  | none => simp [h, hm]
  | some x =>
    cases x with
    | mk nm pr av mx ua =>
      cases ua with
      | none => simp [h, hm, drain]
      | some u => simp [store_set_self, drain]

lemma drain_zero (x : Meal) : drain 0 x = x := by
  cases x with
  | mk nm pr av mx ua =>
    cases ua <;> simp [drain]

lemma drain_drain (a b : Int) (x : Meal) :
    drain b (drain a x) = drain (a + b) x := by
  cases x with
  | mk nm pr av mx ua =>
    cases ua <;> simp [drain, Int.sub_sub]

lemma map_drain_zero (om : Option Meal) : om.map (drain 0) = om := by
  cases om with
  | none => rfl
  | some x => simp [drain_zero]

lemma map_drain_drain (a b : Int) (om : Option Meal) :
    (om.map (drain a)).map (drain b) = om.map (drain (a + b)) := by
  cases om with
  | none => rfl
  | some x => simp [drain_drain]

lemma decrement_units_untouched (orig : MealStore) :
    ∀ (items : List Item) (store : MealStore) (m : Nat),
      (∀ it ∈ items, it.meal ≠ m) →
      decrement_units orig store items m = store m := by
  intro items
  induction items with
  | nil => intro store m _; rfl
  | cons it rest ih =>
    intro store m h
    have step : decrement_units orig store (it :: rest)
        = decrement_units orig (decrement_one orig store it) rest := rfl
    rw [step,
      ih (decrement_one orig store it) m (fun q hq => h q (List.mem_cons_of_mem it hq))]
    exact decrement_one_ne orig store it m (Ne.symm (h it (List.mem_cons_self it rest)))

lemma decrement_units_single (orig : MealStore) :
    ∀ (items : List Item) (store : MealStore) (it0 : Item),
      (items.map Item.meal).Nodup → it0 ∈ items →
      store it0.meal = orig it0.meal →
      decrement_units orig store items it0.meal
        = (orig it0.meal).map (drain (it0.quantity : Int)) := by
  intro items
  induction items with
  | nil => intro store it0 _ hmem _; cases hmem
  | cons it rest ih =>
    intro store it0 hnd hmem hagree
    rw [List.map_cons, List.nodup_cons] at hnd
    obtain ⟨hnotin, hnd2⟩ := hnd
    have step : decrement_units orig store (it :: rest)
        = decrement_units orig (decrement_one orig store it) rest := rfl
    rw [step]
    rcases List.mem_cons.mp hmem with heq | hmem2
    · subst heq
      have hrest : ∀ q ∈ rest, q.meal ≠ it0.meal := by
        intro q hq contra
        exact hnotin (contra ▸ List.mem_map_of_mem Item.meal hq)
      rw [decrement_units_untouched orig rest (decrement_one orig store it0)
        it0.meal hrest]
      exact decrement_one_apply orig store it0 hagree
    · have hne : it.meal ≠ it0.meal := by
        intro contra
        exact hnotin (contra ▸ List.mem_map_of_mem Item.meal hmem2)
      apply ih (decrement_one orig store it) it0 hnd2 hmem2
      rw [decrement_one_ne orig store it it0.meal (Ne.symm hne)]
      exact hagree

lemma qty_in_zero (m : Nat) :
    ∀ items : List Item, (∀ it ∈ items, it.meal ≠ m) → qty_in m items = 0 := by
  intro items
  induction items with
  | nil => intro _; rfl
  | cons it rest ih =>
    intro h
    have hne : it.meal ≠ m := h it (List.mem_cons_self it rest)
    simp [qty_in, hne, ih (fun q hq => h q (List.mem_cons_of_mem it hq))]

lemma qty_in_single :
    ∀ (items : List Item) (it0 : Item), (items.map Item.meal).Nodup →
      it0 ∈ items → qty_in it0.meal items = (it0.quantity : Int) := by
  intro items
  induction items with
  | nil => intro it0 _ hmem; cases hmem
  | cons it rest ih =>
    intro it0 hnd hmem
    rw [List.map_cons, List.nodup_cons] at hnd
    obtain ⟨hnotin, hnd2⟩ := hnd
    rcases List.mem_cons.mp hmem with heq | hmem2
    · subst heq
      have hrest : ∀ q ∈ rest, q.meal ≠ it0.meal := by
        intro q hq contra
        exact hnotin (contra ▸ List.mem_map_of_mem Item.meal hq)
      rw [show qty_in it0.meal (it0 :: rest)
          = (if it0.meal = it0.meal then (it0.quantity : Int) else 0)
            + qty_in it0.meal rest from rfl,
        qty_in_zero it0.meal rest hrest, if_pos rfl]
      omega
    · have hne : it.meal ≠ it0.meal := by
        intro contra
        exact hnotin (contra ▸ List.mem_map_of_mem Item.meal hmem2)
      rw [show qty_in it0.meal (it :: rest)
          = (if it.meal = it0.meal then (it.quantity : Int) else 0)
            + qty_in it0.meal rest from rfl,
        if_neg hne, ih it0 hnd2 hmem2]
      omega

lemma decrement_units_apply_nodup (items : List Item)
    (hnd : (items.map Item.meal).Nodup) (store : MealStore) (m : Nat) :
    decrement_units store store items m = (store m).map (drain (qty_in m items)) := by
  by_cases hex : ∃ it0 ∈ items, it0.meal = m
  · obtain ⟨it0, hmem, hm0⟩ := hex
    subst hm0
    rw [decrement_units_single store items store it0 hnd hmem rfl,
      qty_in_single items it0 hnd hmem]
  · push_neg at hex
    rw [decrement_units_untouched store items store m hex,
      qty_in_zero m items hex, map_drain_zero]

/-! Helper lemmas about the validation pipeline. -/

lemma checkItem_ok_inv (store : MealStore) (it : Item)
    (h : checkItem store it = Except.ok ()) :
    ∃ x, store it.meal = some x ∧ x.is_available = true ∧
      it.quantity ≤ x.max_per_person ∧
      ∀ u, x.units_available = some u → (it.quantity : Int) ≤ u := by
  unfold checkItem at h
  split at h
  · simp at h
  · rename_i x hm
    split at h
    · simp at h
    · rename_i hav
      split at h
      · simp at h
      · rename_i hcap
        refine ⟨x, hm, by simpa using hav, by omega, ?_⟩
        intro u hu
        split at h
        · rename_i u2 hu2
          split at h
          · simp at h
          · rename_i hq
            rw [hu2] at hu
            cases hu
            omega
        · rename_i hu2
          rw [hu2] at hu
          cases hu

lemma checkItems_ok_mem (store : MealStore) :
    ∀ items, checkItems store items = Except.ok () →
      ∀ it ∈ items, checkItem store it = Except.ok () := by
  intro items
  induction items with
  | nil => intro _ it hit; cases hit
  | cons q rest ih =>
    intro h it hit
    unfold checkItems at h
    cases hc : checkItem store q with
    | error e => rw [hc] at h; simp at h
    | ok u =>
      cases u
      rw [hc] at h
      cases hit with
      | head => exact hc
      | tail _ hmem => exact ih h it hmem

lemma storeWF_decrement (items : List Item) (store : MealStore)
    (hwf : storeWF store) (hck : checkItems store items = Except.ok ())
    (hnd : (items.map Item.meal).Nodup) :
    storeWF (decrement_units store store items) := by
  intro i m' u' hsm hum
  by_cases hex : ∃ it0 ∈ items, it0.meal = i
  · obtain ⟨it0, hmem, hm0⟩ := hex
    subst hm0
    rw [decrement_units_single store items store it0 hnd hmem rfl] at hsm
    obtain ⟨x, hx, _, _, hub⟩ :=
      checkItem_ok_inv store it0 (checkItems_ok_mem store items hck it0 hmem)
    rw [hx] at hsm
    simp only [Option.map] at hsm
    cases hsm
    cases hxu : x.units_available with
    | none => simp [drain, hxu] at hum
    | some u0 =>
      simp [drain, hxu] at hum
      have := hub u0 hxu
      omega
  · push_neg at hex
    rw [decrement_units_untouched store items store i hex] at hsm
    exact hwf i m' u' hsm hum

lemma checkItems_not_ok (store : MealStore) :
    ∀ items it, it ∈ items → checkItem store it ≠ Except.ok () →
      checkItems store items ≠ Except.ok () := by
  intro items
  induction items with
  | nil => intro it hit; cases hit
  | cons q rest ih =>
    intro it hit hne h
    unfold checkItems at h
    cases hc : checkItem store q with
    | error e => rw [hc] at h; simp at h
    | ok u =>
      cases u
      rw [hc] at h
      cases hit with
      | head => exact hne hc
      | tail _ hmem => exact ih it hmem hne h

lemma checkItem_units_exceeded (store : MealStore) (it : Item) (x : Meal) (u : Int)
    (hx : store it.meal = some x) (hu : x.units_available = some u)
    (hq : (it.quantity : Int) > u) : checkItem store it ≠ Except.ok () := by
  intro h
  obtain ⟨y, hy, _, _, hub⟩ := checkItem_ok_inv store it h
  rw [hx] at hy
  cases hy
  exact absurd (hub u hu) (by omega)

lemma validate_items_ok_inv (store : MealStore) (items items2 : List Item)
    (h : validate_items store items = Except.ok items2) :
    items2 = items ∧ items ≠ [] ∧ checkItems store items = Except.ok () := by
  unfold validate_items at h
  by_cases he : items.isEmpty
  · rw [if_pos he] at h; simp at h
  · rw [if_neg he] at h
    cases hc : checkItems store items with
    | error e => rw [hc] at h; simp at h
    | ok u =>
      cases u
      rw [hc] at h
      cases h
      exact ⟨rfl, fun hnil => he (by rw [hnil]; rfl), rfl⟩

lemma processOrder_not_ok (cal : Calendar) (today : Nat) (store : MealStore)
    (items : List Item) (h : checkItems store items ≠ Except.ok ()) :
    processOrder cal today store items = (none, store) := by
  unfold processOrder orderCreate validate_items
  by_cases he : items.isEmpty
  · rw [if_pos he]
  · rw [if_neg he]
    cases hc : checkItems store items with
    | error e => rfl
    | ok u => cases u; exact absurd hc h

lemma orderCreate_ok_inv (cal : Calendar) (today : Nat) (store : MealStore)
    (items : List Item) (co : CreatedOrder) (s2 : MealStore)
    (h : orderCreate cal today store items = Except.ok (co, s2)) :
    items ≠ [] ∧ checkItems store items = Except.ok () ∧
    co.order = Order.save cal today (fresh_order cal today store items) ∧
    co.order_items = build_items store co.order items ∧
    s2 = decrement_units store store items := by
  unfold orderCreate at h
  cases hv : validate_items store items with
  | error e => rw [hv] at h; simp at h
  | ok items2 =>
    rw [hv] at h
    obtain ⟨rfl, hne, hck⟩ := validate_items_ok_inv store items items2 hv
    injection h with h2
    injection h2 with hco hs2
    rw [← hco, ← hs2]
    exact ⟨hne, hck, rfl, rfl, rfl⟩

/-! Helper lemmas about the created order, its items, and failure paths. -/

lemma save_fresh (cal : Calendar) (today : Nat) (store : MealStore)
    (items : List Item) :
    Order.save cal today (fresh_order cal today store items) =
      if is_free_meal_day cal today then
        { status := OrderStatus.free, total_amount := 0,
          is_free_meal := true, created_at := some today }
      else
        { status := OrderStatus.pending, total_amount := order_total store items,
          is_free_meal := false, created_at := some today } := by
  unfold Order.save fresh_order
  cases hf : is_free_meal_day cal today <;> simp [hf]

lemma build_items_free (store : MealStore) (ord : Order)
    (hfree : ord.is_free_meal = true) :
    ∀ items, ∀ oi ∈ build_items store ord items,
      oi.price_per_item = 0 ∧ oi.subtotal = 0 := by
  intro items
  induction items with
  | nil => intro oi hoi; cases hoi
  | cons it rest ih =>
    intro oi hoi
    cases hoi with
    | head =>
      cases hm : store it.meal with
      | none => simp [hm]
      | some m => simp [hm, OrderItem.save, hfree]
    | tail _ hmem => exact ih oi hmem

lemma sum_build (store : MealStore) (ord : Order) :
    ∀ items, sum_subtotals (build_items store ord items)
      = if ord.is_free_meal then 0 else order_total store items := by
  intro items
  induction items with
  | nil =>
    cases hf : ord.is_free_meal <;> simp [build_items, sum_subtotals, order_total, hf]
  | cons it rest ih =>
    have hstep : sum_subtotals (build_items store ord (it :: rest))
        = (match store it.meal with
           | some m => OrderItem.save m ord it
           | none => { meal := it.meal, quantity := it.quantity,
                       price_per_item := 0, subtotal := 0 }).subtotal
          + sum_subtotals (build_items store ord rest) := rfl
    rw [hstep, ih]
    cases hf : ord.is_free_meal with
    | false =>
      simp only [hf, Bool.false_eq_true, if_false]
      cases hm : store it.meal with
      | none => simp [hm, meal_price, order_total]
      | some m => simp [hm, meal_price, order_total, OrderItem.save, hf]
    | true =>
      simp only [hf, if_true]
      cases hm : store it.meal with
      | none => simp [hm]
      | some m => simp [hm, OrderItem.save, hf]

lemma build_items_mem_nonfree (store : MealStore) (ord : Order)
    (hfree : ord.is_free_meal = false) :
    ∀ items, checkItems store items = Except.ok () →
      ∀ oi ∈ build_items store ord items,
        ∃ x, store oi.meal = some x ∧ oi.price_per_item = x.price ∧
          oi.subtotal = x.price * (oi.quantity : Int) := by
  intro items
  induction items with
  | nil => intro _ oi hoi; cases hoi
  | cons it rest ih =>
    intro h oi hoi
    unfold checkItems at h
    cases hc : checkItem store it with
    | error e => rw [hc] at h; simp at h
    | ok u =>
      cases u
      rw [hc] at h
      obtain ⟨x, hx, _, _, _⟩ := checkItem_ok_inv store it hc
      cases hoi with
      | head => refine ⟨x, ?_, ?_, ?_⟩ <;> simp [hx, OrderItem.save, hfree]
      | tail _ hmem => exact ih h oi hmem

lemma checkItems_cons (store : MealStore) (q : Item) (rest : List Item) :
    checkItems store (q :: rest)
      = match checkItem store q with
        | Except.error e => Except.error e
        | Except.ok _ => checkItems store rest := rfl

lemma checkItems_append_err (store : MealStore) (e : String) (it : Item)
    (hit : checkItem store it = Except.error e) :
    ∀ pre post, checkItems store pre = Except.ok () →
      checkItems store (pre ++ it :: post) = Except.error e := by
  intro pre
  induction pre with
  | nil =>
    intro post _
    rw [List.nil_append, checkItems_cons, hit]
  | cons q rest ih =>
    intro post hpre
    rw [List.cons_append, checkItems_cons]
    cases hc : checkItem store q with
    | error e2 => simp [checkItems_cons, hc] at hpre
    | ok u =>
      cases u
      simp only [checkItems_cons, hc] at hpre
      exact ih post hpre

lemma checkItem_eval (store : MealStore) (it : Item) (x : Meal)
    (hx : store it.meal = some x) :
    checkItem store it =
      (if !x.is_available then Except.error (x.name ++ " is not available.")
       else if it.quantity > x.max_per_person then
         Except.error ("Maximum " ++ toString x.max_per_person ++ " " ++ x.name
           ++ " allowed per person.")
       else match x.units_available with
         | some u =>
           if (it.quantity : Int) > u then
             Except.error ("Only " ++ toString u ++ " units of " ++ x.name
               ++ " available.")
           else Except.ok ()
         | none => Except.ok ()) := by
  unfold checkItem
  rw [hx]

lemma checkItem_error_shape (store : MealStore) (it : Item) (x : Meal) (e : String)
    (hx : store it.meal = some x) (h : checkItem store it = Except.error e) :
    e = x.name ++ " is not available." ∨
    e = "Maximum " ++ toString x.max_per_person ++ " " ++ x.name
      ++ " allowed per person." ∨
    ∃ u, x.units_available = some u ∧
      e = "Only " ++ toString u ++ " units of " ++ x.name ++ " available." := by
  rw [checkItem_eval store it x hx] at h
  by_cases hav : (!x.is_available) = true
  · rw [if_pos hav] at h
    left
    injection h with h2
    exact h2.symm
  · rw [if_neg hav] at h
    by_cases hcap : it.quantity > x.max_per_person
    · rw [if_pos hcap] at h
      right; left
      injection h with h2
      exact h2.symm
    · rw [if_neg hcap] at h
      cases hu : x.units_available with
      | none =>
        rw [hu] at h
        have h3 : Except.ok () = Except.error e := h
        simp at h3
      | some u =>
        rw [hu] at h
        have h3 : (if (it.quantity : Int) > u then
            Except.error ("Only " ++ toString u ++ " units of " ++ x.name
              ++ " available.")
          else Except.ok ()) = Except.error e := h
        by_cases hq : (it.quantity : Int) > u
        · rw [if_pos hq] at h3
          right; right
          refine ⟨u, rfl, ?_⟩
          injection h3 with h4
          exact h4.symm
        · rw [if_neg hq] at h3
          simp at h3

lemma orderCreateView_err (cal : Calendar) (today : Nat) (store : MealStore)
    (items : List Item) (e : String)
    (h : validate_items store items = Except.error e) :
    orderCreateView cal today store items = (none, [], store) := by
  unfold orderCreateView orderCreate
  rw [h]

lemma runOrders_apply (cal : Calendar) (today : Nat) :
    ∀ (reqs : List (List Item)) (store : MealStore),
      storeWF store → (∀ req ∈ reqs, (req.map Item.meal).Nodup) →
      storeWF (runOrders cal today store reqs).1 ∧
      ∀ m, (runOrders cal today store reqs).1 m
        = (store m).map (drain (consumed m reqs (runOrders cal today store reqs).2)) := by
  intro reqs
  induction reqs with
  | nil =>
    intro store hwf _
    exact ⟨hwf, fun m => by simp [runOrders, consumed, map_drain_zero]⟩
  | cons req rest ih =>
    intro store hwf hnd
    have hndh : (req.map Item.meal).Nodup := hnd req (List.mem_cons_self _ _)
    have hndr : ∀ r ∈ rest, (r.map Item.meal).Nodup :=
      fun r hr => hnd r (List.mem_cons_of_mem _ hr)
    cases hp : orderCreate cal today store req with
    | error e =>
      have hproc : processOrder cal today store req = (none, store) := by
        unfold processOrder; rw [hp]
      have hrun : runOrders cal today store (req :: rest)
          = ((runOrders cal today store rest).1,
             false :: (runOrders cal today store rest).2) := by
        simp [runOrders, hproc]
      obtain ⟨hwf2, hform⟩ := ih store hwf hndr
      rw [hrun]
      refine ⟨hwf2, fun m => ?_⟩
      rw [hform m]
      simp [consumed]
    | ok pair =>
      obtain ⟨co, s2⟩ := pair
      obtain ⟨_, hck, _, _, hs2⟩ := orderCreate_ok_inv cal today store req co s2 hp
      have hproc : processOrder cal today store req = (some co, s2) := by
        unfold processOrder; rw [hp]
      have hrun : runOrders cal today store (req :: rest)
          = ((runOrders cal today s2 rest).1,
             true :: (runOrders cal today s2 rest).2) := by
        simp [runOrders, hproc]
      have hwf2 : storeWF s2 := by
        rw [hs2]; exact storeWF_decrement req store hwf hck hndh
      obtain ⟨hwf3, hform⟩ := ih s2 hwf2 hndr
      rw [hrun]
      refine ⟨hwf3, fun m => ?_⟩
      rw [hform m, hs2, decrement_units_apply_nodup req hndh store m, map_drain_drain]
      simp [consumed]

lemma storeA_wf : storeWF storeA := by
  intro i m u h1 h2
  by_cases hi : i = 0
  · subst hi
    simp [storeA] at h1
    subst h1
    simp [mealA] at h2
    omega
  · simp [storeA, hi] at h1

/-! Claim theorems. -/

/-- C1 (amended): `Order.save` re-evaluates the free-meal calendar on every
save rather than never; the freeze holds only in the weaker sense that a
save under a calendar in which the order's creation date is not an active
free-meal day leaves the order's fields unchanged (so deactivating or
deleting the calendar row never reverts the flag, total or status of an
existing order), and an order already marked free keeps the free flag,
the `free` status and the zero total under every later save. -/
theorem c1_free_fields_monotone (cal : Calendar) (today : Nat) (o : Order) :
    (is_free_meal_day cal (o.created_at.getD today) = false →
      Order.save cal today o
        = { o with created_at := some (o.created_at.getD today) }) ∧
    (o.is_free_meal = true → o.status = OrderStatus.free → o.total_amount = 0 →
      (Order.save cal today o).is_free_meal = true ∧
      (Order.save cal today o).status = OrderStatus.free ∧
      (Order.save cal today o).total_amount = 0) := by
  constructor
  · intro h
    simp [Order.save, h]
  · intro h1 h2 h3
    by_cases hf : is_free_meal_day cal (o.created_at.getD today) = true
    · simp [Order.save, hf]
    · simp only [Bool.not_eq_true] at hf
      simp [Order.save, hf]
      exact ⟨h1, h2, h3⟩

/-- Witness for C1: saving an order created on day 5 under an empty
calendar leaves it unchanged. -/
theorem c1_witness :
    Order.save [] 9 ⟨OrderStatus.pending, 250, false, some 5⟩
      = ⟨OrderStatus.pending, 250, false, some 5⟩ :=
  (c1_free_fields_monotone [] 9 ⟨OrderStatus.pending, 250, false, some 5⟩).1 rfl

/-- C1 counterexample: an order created on day 5 as a regular pending
order is re-evaluated by the save inside a later payment submission after
day 5 has been made an active free-meal day, changing the supposedly
frozen flag, status and total. -/
theorem c1_counterexample :
    (paymentSubmit [⟨5, true⟩] 9 ⟨OrderStatus.pending, 250, false, some 5⟩ none
        ⟨"QWE1", 250⟩).toOption.map
      (fun r => (r.1.is_free_meal, r.1.status, r.1.total_amount))
      = some (true, OrderStatus.free, 0) := by decide

/-- C4 (amended): payment submission is rejected, with the recorded
message and without producing a payment row, when a payment already
exists or when the order is a free-meal order; otherwise it succeeds,
producing exactly the one new payment row and saving the order with
status `paid`, which the save hook keeps as `paid` whenever the order's
creation date is not an active free-meal day at submission time. -/
theorem c4_payment_submission (cal : Calendar) (today : Nat) (o : Order)
    (ex : Option Payment) (inp : PaymentInput) :
    (∀ p, ex = some p → paymentSubmit cal today o ex inp
      = Except.error "Payment already exists for this order.") ∧
    (ex = none → o.is_free_meal = true → paymentSubmit cal today o ex inp
      = Except.error "Cannot create payment for free meal orders.") ∧
    (ex = none → o.is_free_meal = false →
      paymentSubmit cal today o ex inp
        = Except.ok (Order.save cal today { o with status := OrderStatus.paid },
            { transaction_code := inp.transaction_code,
              amount_paid := inp.amount_paid,
              is_verified := false, verification_notes := "" }) ∧
      (is_free_meal_day cal (o.created_at.getD today) = false →
        (Order.save cal today { o with status := OrderStatus.paid }).status
          = OrderStatus.paid)) := by
  refine ⟨?_, ?_, ?_⟩
  · intro p hp
    subst hp
    simp [paymentSubmit, payment_validate]
  · intro hex hfree
    subst hex
    simp [paymentSubmit, payment_validate, hfree]
  · intro hex hfree
    subst hex
    constructor
    · simp [paymentSubmit, payment_validate, hfree]
    · intro hcal
      simp [Order.save, hcal]

/-- Witness for C4: a first submission against a regular pending order on
an empty calendar succeeds and sets the status to `paid`. -/
theorem c4_witness :
    paymentSubmit [] 9 ⟨OrderStatus.pending, 100, false, some 3⟩ none ⟨"AB11", 100⟩
      = Except.ok (⟨OrderStatus.paid, 100, false, some 3⟩, ⟨"AB11", 100, false, ""⟩) := by
  have h := (c4_payment_submission [] 9 ⟨OrderStatus.pending, 100, false, some 3⟩
    none ⟨"AB11", 100⟩).2.2 rfl rfl
  exact h.1.trans (by rfl)

/-- C4 counterexample: submission against a non-free order whose creation
date has since become an active free-meal day succeeds but leaves the
order in status `free`, not `paid`. -/
theorem c4_counterexample :
    (paymentSubmit [⟨3, true⟩] 8 ⟨OrderStatus.pending, 100, false, some 3⟩ none
        ⟨"AB12", 100⟩).toOption.map (fun r => r.1.status) = some OrderStatus.free
    ∧ OrderStatus.free ≠ OrderStatus.paid := ⟨by decide, by decide⟩

/-- C5 (amended): after an administrative payment update, if the payment
is verified and fully paid the order is saved with status `confirmed`,
which the save hook keeps whenever the order's creation date is not an
active free-meal day; a partial or unverified payment leaves the order row
completely untouched. -/
theorem c5_verification_confirms (cal : Calendar) (today : Nat) (p : Payment)
    (o : Order) (inp : PaymentUpdateInput) :
    ((apply_update p inp).is_verified = true →
      (apply_update p inp).is_fully_paid o = true →
      (paymentUpdate cal today p o inp).1 = apply_update p inp ∧
      (is_free_meal_day cal (o.created_at.getD today) = false →
        (paymentUpdate cal today p o inp).2.status = OrderStatus.confirmed)) ∧
    (((apply_update p inp).is_verified = false ∨
        (apply_update p inp).is_fully_paid o = false) →
      (paymentUpdate cal today p o inp).1 = apply_update p inp ∧
      (paymentUpdate cal today p o inp).2 = o) := by
  constructor
  · intro hv hf
    refine ⟨by simp [paymentUpdate, hv, hf], ?_⟩
    intro hcal
    simp [paymentUpdate, hv, hf, Order.save, hcal]
  · intro hd
    rcases hd with h | h <;> simp [paymentUpdate, h]

/-- Witness for C5: verifying a full payment of 100 against a 100-total
order on an empty calendar confirms the order. -/
theorem c5_witness :
    (paymentUpdate [] 9 ⟨"T1", 0, false, ""⟩ ⟨OrderStatus.paid, 100, false, some 4⟩
        ⟨some 100, some true, none⟩).2.status = OrderStatus.confirmed :=
  ((c5_verification_confirms [] 9 ⟨"T1", 0, false, ""⟩
      ⟨OrderStatus.paid, 100, false, some 4⟩ ⟨some 100, some true, none⟩).1
    (by decide) (by decide)).2 (by decide)

/-- C5 counterexample: the same verified full payment against an order
whose creation date has since become an active free-meal day leaves the
order in status `free`, not `confirmed`. -/
theorem c5_counterexample :
    (paymentUpdate [⟨4, true⟩] 9 ⟨"T1", 0, false, ""⟩
        ⟨OrderStatus.paid, 100, false, some 4⟩
        ⟨some 100, some true, none⟩).2.status = OrderStatus.free
    ∧ OrderStatus.free ≠ OrderStatus.confirmed := ⟨by decide, by decide⟩

/-- C7: for every payment and order, the remaining amount equals
`max(total - paid, 0)` and is never negative, and the payment counts as
fully paid exactly when the amount paid is at least the total; in
particular an overpayment yields remaining 0 and fully-paid true. -/
theorem c7_remaining_clamped (o : Order) (p : Payment) :
    Payment.amount_remaining p o = max (o.total_amount - p.amount_paid) 0 ∧
    0 ≤ Payment.amount_remaining p o ∧
    (Payment.is_fully_paid p o = true ↔ o.total_amount ≤ p.amount_paid) ∧
    (o.total_amount < p.amount_paid →
      Payment.amount_remaining p o = 0 ∧ Payment.is_fully_paid p o = true) := by
  refine ⟨rfl, le_max_right _ _, ?_, ?_⟩
  · simp [Payment.is_fully_paid, ge_iff_le]
  · intro hlt
    constructor
    · unfold Payment.amount_remaining
      rw [max_eq_right (by omega)]
    · simp [Payment.is_fully_paid]
      omega

/-- Witness for C7 at total 100, paid 150. -/
theorem c7_witness :
    Payment.amount_remaining ⟨"X1", 150, false, ""⟩
        ⟨OrderStatus.paid, 100, false, some 1⟩ = 0 ∧
    Payment.is_fully_paid ⟨"X1", 150, false, ""⟩
        ⟨OrderStatus.paid, 100, false, some 1⟩ = true :=
  (c7_remaining_clamped ⟨OrderStatus.paid, 100, false, some 1⟩
    ⟨"X1", 150, false, ""⟩).2.2.2 (by decide)

/-- C8 (amended): re-applying the administrative update with unchanged
field values to an already-verified fully-paid payment whose order is
`confirmed` changes nothing, provided the order's creation date is not an
active free-meal day in the current calendar. -/
theorem c8_reverify_idempotent (cal : Calendar) (today : Nat) (p : Payment)
    (o : Order) (d : Nat) (inp : PaymentUpdateInput)
    (hv : p.is_verified = true) (hf : p.is_fully_paid o = true)
    (hs : o.status = OrderStatus.confirmed) (hd : o.created_at = some d)
    (hcal : is_free_meal_day cal d = false)
    (hinp : apply_update p inp = p) :
    paymentUpdate cal today p o inp = (p, o) := by
  obtain ⟨st, ta, fm, ca⟩ := o
  have hs2 : st = OrderStatus.confirmed := hs
  have hd2 : ca = some d := hd
  subst hs2
  subst hd2
  simp [paymentUpdate, hinp, hv, hf, Order.save, hcal]

/-- Witness for C8: re-verifying an unchanged, verified, fully-paid
payment under an empty calendar leaves payment and order as they were. -/
theorem c8_witness :
    paymentUpdate [] 9 ⟨"T2", 100, true, "ok"⟩
        ⟨OrderStatus.confirmed, 100, false, some 6⟩
        ⟨some 100, some true, some "ok"⟩
      = (⟨"T2", 100, true, "ok"⟩, ⟨OrderStatus.confirmed, 100, false, some 6⟩) :=
  c8_reverify_idempotent [] 9 ⟨"T2", 100, true, "ok"⟩
    ⟨OrderStatus.confirmed, 100, false, some 6⟩ 6 ⟨some 100, some true, some "ok"⟩
    rfl (by decide) rfl rfl (by decide) (by decide)

/-- C8 counterexample: the same unchanged re-verification after the
order's creation date has been made an active free-meal day moves the
order from `confirmed` to `free`. -/
theorem c8_counterexample :
    (paymentUpdate [⟨6, true⟩] 9 ⟨"T2", 100, true, ""⟩
        ⟨OrderStatus.confirmed, 100, false, some 6⟩
        ⟨some 100, some true, some ""⟩).2.status = OrderStatus.free
    ∧ OrderStatus.free ≠ OrderStatus.confirmed := ⟨by decide, by decide⟩

/-- C9 (amended): payment submission never consults the order's status:
for any non-free order without an existing payment it is accepted, and the
resulting status is `paid` exactly when the order's creation date is not
an active free-meal day at submission time (otherwise the save hook turns
the order to `free`). -/
theorem c9_submission_ignores_status (cal : Calendar) (today : Nat) (o : Order)
    (inp : PaymentInput) (hfree : o.is_free_meal = false) :
    paymentSubmit cal today o none inp
      = Except.ok (Order.save cal today { o with status := OrderStatus.paid },
          ⟨inp.transaction_code, inp.amount_paid, false, ""⟩) ∧
    (is_free_meal_day cal (o.created_at.getD today) = false →
      (Order.save cal today { o with status := OrderStatus.paid }).status
        = OrderStatus.paid) ∧
    (is_free_meal_day cal (o.created_at.getD today) = true →
      (Order.save cal today { o with status := OrderStatus.paid }).status
        = OrderStatus.free) := by
  refine ⟨?_, ?_, ?_⟩
  · simp [paymentSubmit, payment_validate, hfree]
  · intro hcal
    simp [Order.save, hcal]
  · intro hcal
    simp [Order.save, hcal]

/-- Witness for C9: submission against a cancelled (but non-free,
payment-less) order is accepted and overwrites the status with `paid`. -/
theorem c9_witness :
    paymentSubmit [] 9 ⟨OrderStatus.cancelled, 300, false, some 2⟩ none ⟨"ZZ88", 300⟩
      = Except.ok (⟨OrderStatus.paid, 300, false, some 2⟩, ⟨"ZZ88", 300, false, ""⟩) := by
  have h := c9_submission_ignores_status [] 9 ⟨OrderStatus.cancelled, 300, false, some 2⟩
    ⟨"ZZ88", 300⟩ rfl
  exact h.1.trans (by rfl)

/-- C9 counterexample: when the creation date has since become an active
free-meal day the accepted submission ends with status `free`, so the
overwrite to `paid` is not unconditional. -/
theorem c9_counterexample :
    (paymentSubmit [⟨2, true⟩] 9 ⟨OrderStatus.completed, 300, false, some 2⟩ none
        ⟨"ZZ89", 300⟩).toOption.map (fun r => r.1.status) = some OrderStatus.free
    ∧ some OrderStatus.free ≠ some OrderStatus.paid := ⟨by decide, by decide⟩

/-- C10: the login serializer yields a user only when the credentials
authenticate and the account's email flag is verified; a user whose
credentials are correct but whose email is unverified is always
rejected. -/
theorem c10_login_requires_verified (auth : Option User) (email password : String) :
    (∀ u, login_validate auth email password = Except.ok u →
      auth = some u ∧ u.is_email_verified = true) ∧
    (∀ u, auth = some u → u.is_email_verified = false →
      ∀ v, login_validate auth email password ≠ Except.ok v) := by
  constructor
  · intro u h
    unfold login_validate at h
    split at h
    · cases hauth : auth with
      | none => rw [hauth] at h; simp at h
      | some w =>
        rw [hauth] at h
        by_cases hv : w.is_email_verified = true
        · simp [hv] at h
          subst h
          exact ⟨rfl, hv⟩
        · simp only [Bool.not_eq_true] at hv
          simp [hv] at h
    · simp at h
  · intro u hauth hver v h
    unfold login_validate at h
    split at h
    · rw [hauth] at h
      simp [hver] at h
    · simp at h

/-- Witness for C10: a correct credential pair for an unverified account
does not log in. -/
theorem c10_witness :
    login_validate (some ⟨"a@b.co", false⟩) "a@b.co" "pw1"
      ≠ Except.ok ⟨"a@b.co", false⟩ :=
  (c10_login_requires_verified (some ⟨"a@b.co", false⟩) "a@b.co" "pw1").2
    ⟨"a@b.co", false⟩ rfl rfl ⟨"a@b.co", false⟩

/-- C3: for every successfully created order the line subtotals sum to
the order's total; a free-meal order has total 0 and every frozen price
and subtotal 0; a regular order freezes each line at the meal's price at
creation time multiplied by the quantity. -/
theorem c3_total_consistency (cal : Calendar) (today : Nat) (store : MealStore)
    (items : List Item) (co : CreatedOrder) (s2 : MealStore)
    (h : orderCreate cal today store items = Except.ok (co, s2)) :
    sum_subtotals co.order_items = co.order.total_amount ∧
    (co.order.is_free_meal = true →
      co.order.total_amount = 0 ∧
      ∀ oi ∈ co.order_items, oi.price_per_item = 0 ∧ oi.subtotal = 0) ∧
    (co.order.is_free_meal = false →
      ∀ oi ∈ co.order_items, ∃ x, store oi.meal = some x ∧
        oi.price_per_item = x.price ∧
        oi.subtotal = x.price * (oi.quantity : Int)) := by
  obtain ⟨hne, hck, hord, hitems, hs2⟩ :=
    orderCreate_ok_inv cal today store items co s2 h
  rw [save_fresh] at hord
  by_cases hf : is_free_meal_day cal today = true
  · rw [if_pos hf] at hord
    refine ⟨?_, ?_, ?_⟩
    · rw [hitems, hord, sum_build]
      rfl
    · intro _
      refine ⟨by rw [hord], ?_⟩
      intro oi hoi
      rw [hitems, hord] at hoi
      exact build_items_free store _ rfl items oi hoi
    · intro hco
      rw [hord] at hco
      simp at hco
  · simp only [Bool.not_eq_true] at hf
    rw [hf] at hord
    simp only [Bool.false_eq_true, if_false] at hord
    refine ⟨?_, ?_, ?_⟩
    · rw [hitems, hord, sum_build]
      rfl
    · intro hco
      rw [hord] at hco
      simp at hco
    · intro _ oi hoi
      rw [hitems, hord] at hoi
      exact build_items_mem_nonfree store _ rfl items hck oi hoi

/-- Witness for C3: the specification scenario (price 500, quantity 2) on
a regular day yields a 1000 total equal to the summed subtotals. -/
theorem c3_witness :
    sum_subtotals coA.order_items = coA.order.total_amount :=
  (c3_total_consistency [] 7 storeA [⟨0, 2⟩] coA
    (decrement_units storeA storeA [⟨0, 2⟩]) rfl).1

/-- C6: order creation rejects an empty item list; a validated list has
every line available, within the per-person cap and within the finite
unit counter; the first failing line aborts the request with that line's
message; any failing message names the meal of the failing line; no
meal-table change, order or notification is produced on a validation
failure; and the admin serializer validates identically. -/
theorem c6_validation_gate (store : MealStore) :
    validate_items store [] = Except.error "At least one item is required." ∧
    (∀ items items2, validate_items store items = Except.ok items2 →
      items2 = items ∧ items ≠ [] ∧
      ∀ it ∈ items, ∃ x, store it.meal = some x ∧ x.is_available = true ∧
        it.quantity ≤ x.max_per_person ∧
        ∀ u, x.units_available = some u → (it.quantity : Int) ≤ u) ∧
    (∀ pre it post e, checkItems store pre = Except.ok () →
      checkItem store it = Except.error e →
      validate_items store (pre ++ it :: post) = Except.error e) ∧
    (∀ it x e, store it.meal = some x → checkItem store it = Except.error e →
      e = x.name ++ " is not available." ∨
      e = "Maximum " ++ toString x.max_per_person ++ " " ++ x.name
        ++ " allowed per person." ∨
      ∃ u, x.units_available = some u ∧
        e = "Only " ++ toString u ++ " units of " ++ x.name ++ " available.") ∧
    (∀ cal today items e, validate_items store items = Except.error e →
      orderCreateView cal today store items = (none, [], store)) ∧
    (∀ items, admin_validate_items store items = validate_items store items) := by
  refine ⟨rfl, ?_, ?_, ?_, ?_, ?_⟩
  · intro items items2 h
    obtain ⟨h1, h2, h3⟩ := validate_items_ok_inv store items items2 h
    exact ⟨h1, h2, fun it hit =>
      checkItem_ok_inv store it (checkItems_ok_mem store items h3 it hit)⟩
  · intro pre it post e hpre hit
    have hck := checkItems_append_err store e it hit pre post hpre
    have hne2 : (pre ++ it :: post).isEmpty = false := by
      cases pre <;> rfl
    simp [validate_items, hne2, hck]
  · intro it x e hx h
    exact checkItem_error_shape store it x e hx h
  · intro cal today items e h
    exact orderCreateView_err cal today store items e h
  · intro items
    rfl

/-- Witness for C6: a list whose second line requests the unavailable
meal is rejected with the message naming that meal. -/
theorem c6_witness :
    validate_items storeB [⟨0, 1⟩, ⟨1, 1⟩]
      = Except.error "Ugali is not available." :=
  (c6_validation_gate storeB).2.2.1 [⟨0, 1⟩] ⟨1, 1⟩ []
    "Ugali is not available." (by rfl) (by rfl)

/-- C2 (amended): after any sequence of order requests in which each
request references each meal in at most one line, every finite unit
counter equals its initial value minus the quantities consumed by the
accepted requests and never goes negative (rejected requests consume
nothing); and any request carrying a line whose quantity exceeds the
meal's remaining finite counter is rejected with the meal table left
unchanged.  Neither validation nor the decrement loop aggregates
duplicate lines of one request: such a request is accepted even when its
per-meal total exceeds the counter, and its snapshot-based saves
last-write-win (see the counterexample). -/
theorem c2_inventory (cal : Calendar) (today : Nat) (store : MealStore)
    (reqs : List (List Item))
    (hwf : storeWF store)
    (hnd : ∀ req ∈ reqs, (req.map Item.meal).Nodup) :
    storeWF (runOrders cal today store reqs).1 ∧
    (∀ m, (runOrders cal today store reqs).1 m
      = (store m).map (drain (consumed m reqs (runOrders cal today store reqs).2))) ∧
    (∀ items it x u, it ∈ items → store it.meal = some x →
      x.units_available = some u → (it.quantity : Int) > u →
      processOrder cal today store items = (none, store)) := by
  obtain ⟨h1, h2⟩ := runOrders_apply cal today reqs store hwf hnd
  refine ⟨h1, h2, ?_⟩
  intro items it x u hit hx hu hq
  exact processOrder_not_ok cal today store items
    (checkItems_not_ok store items it hit
      (checkItem_units_exceeded store it x u hx hu hq))

/-- Witness for C2: the specification scenario — 3 units, an accepted
order of 2, then a rejected order of 2 — ends with 1 unit and the
acceptance flags `[true, false]`. -/
theorem c2_witness :
    (runOrders [] 7 storeA [[⟨0, 2⟩], [⟨0, 2⟩]]).1 0
        = some { name := "Pilau", price := 500, is_available := true,
                 max_per_person := 2, units_available := some 1 }
    ∧ (runOrders [] 7 storeA [[⟨0, 2⟩], [⟨0, 2⟩]]).2 = [true, false] := by
  have h := c2_inventory [] 7 storeA [[⟨0, 2⟩], [⟨0, 2⟩]] storeA_wf (by decide)
  exact ⟨(h.2.1 0).trans (by decide), by decide⟩

/-- C2 counterexample: with 3 units in stock, a request carrying the same
meal on two lines of quantity 2 each (total 4 > 3) passes `validate_items`
because each line is checked in isolation, and the order is accepted,
refuting the claim's rejection clause; the two snapshot-based saves of
the decrement loop then last-write-win, leaving the counter at
3 - 2 = 1 instead of the claimed initial minus the summed quantities
(3 - 4 = -1), refuting the claim's conservation equation. -/
theorem c2_counterexample :
    validate_items storeA [⟨0, 2⟩, ⟨0, 2⟩] = Except.ok [⟨0, 2⟩, ⟨0, 2⟩]
    ∧ (processOrder [] 7 storeA [⟨0, 2⟩, ⟨0, 2⟩]).1.isSome = true
    ∧ ((processOrder [] 7 storeA [⟨0, 2⟩, ⟨0, 2⟩]).2 0).map Meal.units_available
        = some (some 1)
    ∧ (1 : Int) ≠ 3 - (2 + 2) := ⟨by rfl, by decide, by decide, by decide⟩

end CAMenu
